import Mathlib

/-!
Verification of the keyword-driven Salesforce UI test-automation framework.

The development shallowly embeds the Python sources:
  * `object_repository.py`  — symbolic-name → locator resolution with three
    fallback tiers and `{param}` template substitution,
  * `enhanced_page_actions.py` — the step binder (random-token and context
    variable substitution) and the verb dispatcher,
  * `parallel_runner.py` — the per-test-case executor (fail-fast step loop,
    ERROR/FAILED/PASSED classification, unconditional cleanup).

Python strings are modelled as `List Char`; Python dictionaries (which
preserve insertion order) as association lists; Python exceptions as an
explicit `Except` error channel.  All recursive string functions are
structural or fuelled so that concrete instances evaluate by `rfl`/`decide`.
-/

set_option maxRecDepth 100000

namespace SFA

/-- Python strings modelled as lists of characters. -/
abbrev Str := List Char

/-- Characters Python treats as whitespace (`str.strip`, `str.split`, regex `\s`). -/
def isPySpace (c : Char) : Bool :=
  c == ' ' || c == '\t' || c == '\n' || c == '\r' || c == '\x0b' || c == '\x0c'

/-- Python `s.lower()` (ASCII case folding, as used by the repository keys). -/
def lowerStr (s : Str) : Str := s.map Char.toLower

/-- Python `needle in hay` substring containment. -/
def containsSub (needle : Str) : Str → Bool
  | [] => needle.isEmpty
  | c :: rest => needle.isPrefixOf (c :: rest) || containsSub needle rest

/-- Fuelled core of Python `hay.replace(old, new)`: replace every
non-overlapping occurrence, scanning left to right, never rescanning the
replacement text.  The fuel bounds the number of characters consumed. -/
def replaceAllF (old new : Str) : Nat → Str → Str
  | _, [] => []
  | 0, s => s
  | fuel + 1, c :: rest =>
    if old ≠ [] ∧ old.isPrefixOf (c :: rest) = true then
      new ++ replaceAllF old new fuel ((c :: rest).drop old.length)
    else
      c :: replaceAllF old new fuel rest

/-- Python `hay.replace(old, new)` for nonempty `old`. -/
def replaceAll (old new s : Str) : Str := replaceAllF old new s.length s

/-- Python `s.strip()`. -/
def pyStrip (s : Str) : Str :=
  ((s.dropWhile isPySpace).reverse.dropWhile isPySpace).reverse

/-- Fuelled core of Python `s.split()` (split on whitespace runs, no empties). -/
def splitWsF : Nat → Str → List Str
  | _, [] => []
  | 0, _ => []
  | fuel + 1, c :: rest =>
    if isPySpace c then splitWsF fuel rest
    else (c :: rest.takeWhile (fun d => !isPySpace d)) ::
         splitWsF fuel (rest.dropWhile (fun d => !isPySpace d))

/-- Python `s.split()`. -/
def splitWs (s : Str) : List Str := splitWsF s.length s

/-- Characters of `s` before the first occurrence of `pat`
(the whole string when `pat` is absent): Python `s.split(pat)[0]`. -/
def beforeFirst (pat : Str) : Str → Str
  | [] => []
  | c :: rest =>
    if pat.isPrefixOf (c :: rest) then [] else c :: beforeFirst pat rest

/-- Strip one surrounding pair of double quotes, exactly as
`s[1:-1]` guarded by `s.startswith('"') and s.endswith('"')`. -/
def stripDQ (s : Str) : Str :=
  if s.head? = some '"' ∧ s.getLast? = some '"' then (s.drop 1).dropLast else s

/-- Decimal rendering of a natural number, as Python `str(int(...))`. -/
def natStr (n : Nat) : Str := (Nat.repr n).data

/-- Python `s.strip().split(maxsplit=1)`: either `[]` (whitespace-only input),
`[token]`, or `[token, remainder]` with the separating whitespace dropped. -/
def splitFirstTok (s : Str) : List Str :=
  let t := pyStrip s
  match t with
  | [] => []
  | c :: rest =>
    let tok := c :: rest.takeWhile (fun d => !isPySpace d)
    let rem := (rest.dropWhile (fun d => !isPySpace d)).dropWhile isPySpace
    match rem with
    | [] => [tok]
    | _ => [tok, rem]

/-! ## Locator repository (`object_repository.py`) -/

/-- First tier of `ObjectRepository.get_object_locator`: exact key match
(`object_name in self.objects`). -/
def tierExact (objects : List (Str × Str)) (name : Str) : Option Str :=
  (objects.find? (fun p => p.1 == name)).map (fun p => p.2)

/-- Second tier: first key equal to the queried name case-insensitively,
in map iteration order. -/
def tierCaseInsensitive (objects : List (Str × Str)) (name : Str) : Option Str :=
  (objects.find? (fun p => lowerStr p.1 == lowerStr name)).map (fun p => p.2)

/-- Third tier: first key whose lower-casing is a substring of the lower-cased
name or vice versa, in map iteration order. -/
def tierSubstring (objects : List (Str × Str)) (name : Str) : Option Str :=
  (objects.find? (fun p =>
    containsSub (lowerStr p.1) (lowerStr name) ||
    containsSub (lowerStr name) (lowerStr p.1))).map (fun p => p.2)

/-- Lookup part of `ObjectRepository.get_object_locator`
(object_repository.py lines 51-71), with the source's control flow: exact
membership test, then the case-insensitive loop, then the partial-match loop. -/
def lookupLocator (objects : List (Str × Str)) (name : Str) : Option Str :=
  if objects.any (fun p => p.1 == name) then
    (objects.find? (fun p => p.1 == name)).map (fun p => p.2)
  else
    match objects.find? (fun p => lowerStr p.1 == lowerStr name) with
    | some p => some p.2
    | none =>
      match objects.find? (fun p =>
        containsSub (lowerStr p.1) (lowerStr name) ||
        containsSub (lowerStr name) (lowerStr p.1)) with
      | some p => some p.2
      | none => none

/-- The three-tier resolution policy exactly as the specification words it:
exact, then case-insensitive, then substring, each tier short-circuiting. -/
def resolveTiers (objects : List (Str × Str)) (name : Str) : Option Str :=
  match tierExact objects name with
  | some v => some v
  | none =>
    match tierCaseInsensitive objects name with
    | some v => some v
    | none => tierSubstring objects name

/-- Error channel of the repository: the `ValueError` raised when all three
lookup tiers miss (object_repository.py line 77). -/
inductive RepoErr where
  | notFound (name : Str)
  deriving Repr, DecidableEq

/-- The template placeholder `f"{{{key}}}"` built for a parameter key. -/
def placeholderFor (k : Str) : Str := '\x7b' :: (k ++ ['\x7d'])

/-- Parameter-substitution loop of `get_object_locator`
(object_repository.py lines 83-88): each parameter's placeholder is replaced
by its (stringified) value when present; missing placeholders are only
warned about, never an error. -/
def substituteParams (params : List (Str × Str)) (locator : Str) : Str :=
  params.foldl (fun loc kv =>
    if containsSub (placeholderFor kv.1) loc then
      replaceAll (placeholderFor kv.1) kv.2 loc
    else loc) locator

/-- `ObjectRepository.get_object_locator`: three-tier lookup, `ValueError`
when every tier misses, then parameter substitution guarded by
`if params and '{' in locator`. -/
def get_object_locator (objects : List (Str × Str)) (name : Str)
    (params : List (Str × Str)) : Except RepoErr Str :=
  match lookupLocator objects name with
  | none => Except.error (RepoErr.notFound name)
  | some loc =>
    if !params.isEmpty && containsSub ['\x7b'] loc then
      Except.ok (substituteParams params loc)
    else
      Except.ok loc

/-- In-memory map plus the persisted JSON store of `ObjectRepository`. -/
structure RepoState where
  objects : List (Str × Str)
  stored : List (Str × Str)
  deriving Repr, DecidableEq

/-- Python `del d[k]` on an insertion-ordered dictionary: drop the (unique)
entry with the given key. -/
def eraseKey : List (Str × Str) → Str → List (Str × Str)
  | [], _ => []
  | p :: rest, k => if p.1 == k then rest else p :: eraseKey rest k

/-- `ObjectRepository.remove_object` (object_repository.py lines 120-133):
delete the entry and write the whole remaining map through to the store when
the name is an exact key, otherwise return `False` touching nothing. -/
def remove_object (st : RepoState) (name : Str) : RepoState × Bool :=
  if st.objects.any (fun p => p.1 == name) then
    let objs := eraseKey st.objects name
    ({ objects := objs, stored := objs }, true)
  else
    (st, false)

/-! ## Step binder and dispatcher (`enhanced_page_actions.py`) -/

/-- Execution context: insertion-ordered variable bindings of one test case. -/
abbrev Ctx := List (Str × Str)

/-- Python `context[k] = v` on an insertion-ordered dictionary: update in
place when the key exists, append otherwise. -/
def ctxInsert (ctx : Ctx) (k v : Str) : Ctx :=
  if ctx.any (fun p => p.1 == k) then
    ctx.map (fun p => if p.1 == k then (k, v) else p)
  else
    ctx ++ [(k, v)]

/-- Python `context.get(k)`-like lookup used to state what a stored binding is. -/
def ctxLookup (ctx : Ctx) (k : Str) : Option Str :=
  (ctx.find? (fun p => p.1 == k)).map (fun p => p.2)

/-- Exceptions that can arise inside `PageActions.execute_action`. -/
inductive PyErr where
  | valueError (msg : Str)
  | indexError
  | assertionError
  | timeoutError
  deriving Repr, DecidableEq

/-- The random-token marker of the binder. -/
def randMarker : Str := "$\x7bRANDOM\x7d".data

/-- The name-field guard checked after random substitution. -/
def nameFieldPat : Str := "Name Field with".data

/-- The `${name}` reference for a context variable. -/
def varMarker (k : Str) : Str := '$' :: '\x7b' :: (k ++ ['\x7d'])

/-- Random-token expansion (enhanced_page_actions.py lines 35-37): when the
marker occurs, one timestamp is taken and a single `str.replace` rewrites
every occurrence with that one decimal rendering. -/
def expandRandom (now : Nat) (s : Str) : Str :=
  if containsSub randMarker s then replaceAll randMarker (natStr now) s else s

/-- `re.search(r'with\s+"([^\x22]*)"', s)`: leftmost literal `with`, one or
more whitespace characters, a double quote, then the capture up to the next
double quote (which must exist).  Returns the captured group. -/
def withQuotedAt (s : Str) : Option Str :=
  if ("with".data).isPrefixOf s then
    let t := s.drop 4
    if (t.takeWhile isPySpace).isEmpty then none
    else
      match t.dropWhile isPySpace with
      | '"' :: u =>
        if (u.dropWhile (fun d => !(d == '"'))).isEmpty then none
        else some (u.takeWhile (fun d => !(d == '"')))
      | _ => none
  else none

/-- Leftmost search for the quoted `with "..."` group (enhanced_page_actions.py
line 40). -/
def searchWithQuoted : Str → Option Str
  | [] => none
  | c :: rest =>
    match withQuotedAt (c :: rest) with
    | some v => some v
    | none => searchWithQuoted rest

/-- `action_step.split("Field")[0].strip().split()[-1]`
(enhanced_page_actions.py line 42): the last whitespace token before the
first occurrence of `Field`; `none` models the `IndexError` on an empty
token list. -/
def lastTokBeforeField (s : Str) : Option Str :=
  (splitWs (pyStrip (beforeFirst ("Field".data) s))).getLast?

/-- The derived context key `f'current_{field_type.lower()}_name'`. -/
def deriveKey (ft : Str) : Str :=
  "current_".data ++ lowerStr ft ++ "_name".data

/-- Context-variable expansion loop (enhanced_page_actions.py lines 48-51):
for each binding in insertion order, replace `${name}` when present. -/
def substVars (ctx : Ctx) (s : Str) : Str :=
  ctx.foldl (fun acc kv =>
    if containsSub (varMarker kv.1) acc then
      replaceAll (varMarker kv.1) kv.2 acc
    else acc) s

/-- The binder preamble of `PageActions.execute_action`
(enhanced_page_actions.py lines 34-56): random-token expansion, the
name-field context store, then context-variable substitution.  The error
case is the `IndexError` of `split()[-1]` on an empty token list. -/
def expandStepTokens (now : Nat) (step : Str) (ctx : Ctx) :
    Ctx × Except PyErr Str :=
  if containsSub randMarker step then
    let step1 := expandRandom now step
    if containsSub nameFieldPat step1 then
      match searchWithQuoted step1 with
      | some v =>
        match lastTokBeforeField step1 with
        | none => (ctx, Except.error PyErr.indexError)
        | some ft =>
          let ctx1 := ctxInsert ctx (deriveKey ft) v
          (ctx1, Except.ok (substVars ctx1 step1))
      | none => (ctx, Except.ok (substVars ctx step1))
    else (ctx, Except.ok (substVars ctx step1))
  else (ctx, Except.ok (substVars ctx step))

/-- The fixed set of action handlers.  Each handler models one
`PageActions._perform_*` method: it receives the remainder text and the
context and returns the updated context with a success flag — in the source
every handler catches its own exceptions and returns a boolean, so the
handler type has no error channel. -/
structure Handlers where
  click : Str → Ctx → Ctx × Bool
  fill : Str → Ctx → Ctx × Bool
  select : Str → Ctx → Ctx × Bool
  verify : Str → Ctx → Ctx × Bool
  wait : Str → Ctx → Ctx × Bool
  navigate : Str → Ctx → Ctx × Bool
  screenshot : Str → Ctx → Ctx × Bool
  store : Str → Ctx → Ctx × Bool
  hover : Str → Ctx → Ctx × Bool
  press : Str → Ctx → Ctx × Bool
  check : Str → Ctx → Ctx × Bool
  uncheck : Str → Ctx → Ctx × Bool
  refresh : Ctx → Ctx × Bool
  execute : Str → Ctx → Ctx × Bool
  find : Str → Ctx → Ctx × Bool

/-- The closed verb set of the dispatcher. -/
def isKnownVerb (a : Str) : Bool :=
  a == "click".data || a == "fill".data || a == "select".data ||
  a == "verify".data || a == "wait".data || a == "navigate".data ||
  a == "screenshot".data || a == "store".data || a == "hover".data ||
  a == "press".data || a == "check".data || a == "uncheck".data ||
  a == "refresh".data || a == "execute".data || a == "find".data

/-- Lift a handler result into the dispatcher's error channel. -/
def toOk (p : Ctx × Bool) : Ctx × Except PyErr Bool := (p.1, Except.ok p.2)

/-- The body of the `try` block of `PageActions.execute_action`
(enhanced_page_actions.py lines 30-100): binder preamble, tokenization,
and the verb dispatch chain; `ValueError` for an empty step or an unknown
verb travels on the error channel. -/
def execute_actionTry (h : Handlers) (now : Nat) (step : Str) (ctx : Ctx) :
    Ctx × Except PyErr Bool :=
  match expandStepTokens now step ctx with
  | (ctx1, Except.error e) => (ctx1, Except.error e)
  | (ctx1, Except.ok step1) =>
    match splitFirstTok step1 with
    | [] => (ctx1, Except.error (PyErr.valueError ("Empty action step".data)))
    | tok :: restParts =>
      let action := lowerStr tok
      let remaining := match restParts with
        | [r] => r
        | _ => []
      if action == "click".data then toOk (h.click remaining ctx1)
      else if action == "fill".data then toOk (h.fill remaining ctx1)
      else if action == "select".data then toOk (h.select remaining ctx1)
      else if action == "verify".data then toOk (h.verify remaining ctx1)
      else if action == "wait".data then toOk (h.wait remaining ctx1)
      else if action == "navigate".data then toOk (h.navigate remaining ctx1)
      else if action == "screenshot".data then toOk (h.screenshot remaining ctx1)
      else if action == "store".data then toOk (h.store remaining ctx1)
      else if action == "hover".data then toOk (h.hover remaining ctx1)
      else if action == "press".data then toOk (h.press remaining ctx1)
      else if action == "check".data then toOk (h.check remaining ctx1)
      else if action == "uncheck".data then toOk (h.uncheck remaining ctx1)
      else if action == "refresh".data then toOk (h.refresh ctx1)
      else if action == "execute".data then toOk (h.execute remaining ctx1)
      else if action == "find".data then toOk (h.find remaining ctx1)
      else (ctx1, Except.error (PyErr.valueError ("Unknown action: ".data ++ action)))

/-- `PageActions.execute_action` as its caller observes it: the
`except Exception` handler (enhanced_page_actions.py lines 102-104) converts
every escaping exception into a plain `False` return. -/
def execute_action (h : Handlers) (now : Nat) (step : Str) (ctx : Ctx) :
    Ctx × Bool :=
  match execute_actionTry h now step ctx with
  | (c, Except.ok b) => (c, b)
  | (c, Except.error _) => (c, false)

/-! ## The verify handler (`PageActions._perform_verification`) -/

/-- The UI-driving capability consumed by the verify handler, abstracted to
a deterministic oracle: each field answers whether the corresponding
Playwright call on the given locator succeeds (or what text it reads). -/
structure Page where
  waitVisible : Str → Bool
  waitHidden : Str → Bool
  isEnabled : Str → Bool
  isChecked : Str → Bool
  innerText : Str → Str

/-- Try the one position: a whitespace run, then literal `is`, then a
whitespace run, then the second capture group (regex `.` stops at a
newline).  Mirrors `re.match(r'(.*?)\s+is\s+(.*)', s)` at a fixed split. -/
def tryIsAt (s : Str) : Option Str :=
  if (s.takeWhile isPySpace).isEmpty then none
  else
    let t := s.dropWhile isPySpace
    if ("is".data).isPrefixOf t then
      let u := t.drop 2
      if (u.takeWhile isPySpace).isEmpty then none
      else some ((u.dropWhile isPySpace).takeWhile (fun d => !(d == '\n')))
    else none

/-- Leftmost-split scan for `re.match(r'(.*?)\s+is\s+(.*)', s)`: the lazy
first group takes the shortest newline-free prefix after which
`\s+is\s+(.*)` matches; past a newline the first group can no longer grow. -/
def matchIsFrom : Str → Option (Str × Str)
  | [] => none
  | c :: rest =>
    match tryIsAt (c :: rest) with
    | some tail => some ([], tail)
    | none =>
      if c == '\n' then none
      else
        match matchIsFrom rest with
        | some (pre, tail) => some (c :: pre, tail)
        | none => none

/-- `re.match(r'(.*?)\s+is\s+(.*)', s)` returning both capture groups. -/
def matchIs (s : Str) : Option (Str × Str) := matchIsFrom s

/-- `.ok` when the oracle call succeeds, the given exception otherwise. -/
def okIf (b : Bool) (e : PyErr) : Except PyErr Unit :=
  if b then Except.ok () else Except.error e

/-- The condition chain of `_perform_verification`
(enhanced_page_actions.py lines 363-391): waits raise `TimeoutError` on
failure, state checks raise `AssertionError`, and an unknown condition
raises `ValueError`. -/
def verifyCondE (page : Page) (element cond : Str) : Except PyErr Unit :=
  if cond == "visible".data then okIf (page.waitVisible element) PyErr.timeoutError
  else if cond == "not visible".data || cond == "invisible".data then
    okIf (page.waitHidden element) PyErr.timeoutError
  else if cond == "enabled".data then okIf (page.isEnabled element) PyErr.assertionError
  else if cond == "disabled".data then okIf (!page.isEnabled element) PyErr.assertionError
  else if cond == "checked".data then okIf (page.isChecked element) PyErr.assertionError
  else if cond == "unchecked".data then okIf (!page.isChecked element) PyErr.assertionError
  else if cond == "available".data then okIf (page.waitVisible element) PyErr.timeoutError
  else if ("containing".data).isPrefixOf cond then
    let text := stripDQ (pyStrip (cond.drop 10))
    okIf (containsSub text (page.innerText element)) PyErr.assertionError
  else Except.error (PyErr.valueError ("Unknown condition: ".data ++ cond))

/-- Body of `PageActions._perform_verification`
(enhanced_page_actions.py lines 343-393): parse `X is cond`, resolve `X`
through the repository, and on the repository's `ValueError` fall back to
the literal text locator `text=X` with surrounding double quotes stripped. -/
def perform_verificationE (page : Page) (objects : List (Str × Str))
    (desc : Str) : Except PyErr Unit :=
  match matchIs desc with
  | none => Except.error (PyErr.valueError ("Invalid verify format".data))
  | some (g1, g2) =>
    let t := pyStrip g1
    let cond := pyStrip g2
    match lookupLocator objects t with
    | some loc => verifyCondE page loc cond
    | none => verifyCondE page ("text=".data ++ stripDQ t) cond

/-- `PageActions._perform_verification` as the dispatcher sees it: the
handler's own `except` turns every exception into `False`
(enhanced_page_actions.py lines 394-396). -/
def perform_verification (page : Page) (objects : List (Str × Str))
    (desc : Str) : Bool :=
  match perform_verificationE page objects desc with
  | Except.ok _ => true
  | Except.error _ => false

/-! ## Test-case executor (`parallel_runner.py`) -/

/-- Terminal statuses of a test case. -/
inductive Status where
  | PASSED
  | FAILED
  | ERROR
  deriving Repr, DecidableEq

/-- The result dictionary built by `execute_test_case`. -/
structure TestCaseResult where
  status : Status
  failedSteps : List Str
  errMsg : Option Str
  deriving Repr, DecidableEq

/-- The failed-step description `f"Step {step_num}: {step}"`. -/
def stepDesc (n : Nat) (s : Str) : Str :=
  "Step ".data ++ natStr n ++ ": ".data ++ s

/-- The step loop of `execute_test_case` (parallel_runner.py lines 98-121):
run steps in order threading the context, and on the first `False` record
one failed-step description and stop.  Returns the final context, the list
of executed steps, the failed-step descriptions, and the pass flag. -/
def runSteps (ex : Str → Ctx → Ctx × Bool) :
    List Str → Ctx → Nat → Ctx × (List Str × List Str × Bool)
  | [], ctx, _ => (ctx, ([], [], true))
  | s :: rest, ctx, n =>
    let r := ex s ctx
    if r.2 then
      let q := runSteps ex rest r.1 (n + 1)
      (q.1, (s :: q.2.1, q.2.2.1, q.2.2.2))
    else
      (r.1, ([s], [stepDesc (n + 1) s], false))

/-- Does every step of the trajectory succeed? -/
def allPass (ex : Str → Ctx → Ctx × Bool) : List Str → Ctx → Bool
  | [], _ => true
  | s :: rest, ctx => (ex s ctx).2 && allPass ex rest (ex s ctx).1

/-- The context after running a list of steps. -/
def ctxAfter (ex : Str → Ctx → Ctx × Bool) : List Str → Ctx → Ctx
  | [], ctx => ctx
  | s :: rest, ctx => ctxAfter ex rest (ex s ctx).1

/-- One established browser session, reduced to its step executor
(`page_actions.execute_action` bound to the session's page). -/
structure Session where
  exec : Str → Ctx → Ctx × Bool

/-- `execute_test_case` (parallel_runner.py lines 57-172): session setup may
raise, in which case the unit of work records status `ERROR` with the
exception message and returns normally; otherwise the fail-fast step loop
decides `PASSED`/`FAILED`.  The second component models the `finally` block:
`True` means resource cleanup was attempted on that path. -/
def execute_test_case (setup : Except Str Session) (steps : List Str) :
    TestCaseResult × Bool :=
  match setup with
  | Except.error msg =>
    ({ status := Status.ERROR, failedSteps := [], errMsg := some msg }, true)
  | Except.ok sess =>
    let r := runSteps sess.exec steps [] 0
    if r.2.2.2 then
      ({ status := Status.PASSED, failedSteps := [], errMsg := none }, true)
    else
      ({ status := Status.FAILED, failedSteps := r.2.2.1, errMsg := none }, true)

/-! ## Concrete fixtures used by witnesses and counterexamples -/

/-- Handlers that always succeed and leave the context unchanged. -/
def trivialHandlers : Handlers where
  click := fun _ c => (c, true)
  fill := fun _ c => (c, true)
  select := fun _ c => (c, true)
  verify := fun _ c => (c, true)
  wait := fun _ c => (c, true)
  navigate := fun _ c => (c, true)
  screenshot := fun _ c => (c, true)
  store := fun _ c => (c, true)
  hover := fun _ c => (c, true)
  press := fun _ c => (c, true)
  check := fun _ c => (c, true)
  uncheck := fun _ c => (c, true)
  refresh := fun c => (c, true)
  execute := fun _ c => (c, true)
  find := fun _ c => (c, true)

/-- A step executor on which exactly the step `S2` fails. -/
def failS2Exec : Str → Ctx → Ctx × Bool :=
  fun s c => (c, !(s == "S2".data))

/-- A page oracle on which every element is visible and enabled. -/
def examplePage : Page where
  waitVisible := fun _ => true
  waitHidden := fun _ => true
  isEnabled := fun _ => true
  isChecked := fun _ => false
  innerText := fun _ => []

/-! ## Helper lemmas -/

theorem find?_of_any {α : Type} (p : α → Bool) (l : List α) (h : l.any p = true) :
    ∃ x, l.find? p = some x := by
  induction l with
  | nil => simp at h
  | cons a t ih =>
    cases hp : p a with
    | true => exact ⟨a, List.find?_cons_of_pos _ hp⟩
    | false =>
      rw [List.find?_cons_of_neg _ (by simp [hp])]
      apply ih
      simpa [List.any_cons, hp] using h

theorem find?_none_of_any_false {α : Type} (p : α → Bool) (l : List α)
    (h : l.any p = false) : l.find? p = none := by
  induction l with
  | nil => rfl
  | cons a t ih =>
    simp only [List.any_cons, Bool.or_eq_false_iff] at h
    rw [List.find?_cons_of_neg _ (by simp [h.1])]
    exact ih h.2

theorem lookupLocator_eq_resolveTiers (objects : List (Str × Str)) (name : Str) :
    lookupLocator objects name = resolveTiers objects name := by
  unfold lookupLocator resolveTiers tierExact tierCaseInsensitive tierSubstring
  by_cases h : objects.any (fun p => p.1 == name) = true
  · obtain ⟨x, hx⟩ := find?_of_any _ _ h
    simp [h, hx]
  · have ha : objects.any (fun p => p.1 == name) = false := by
      cases hx : objects.any (fun p => p.1 == name)
      · rfl
      · exact absurd hx h
    have hf : objects.find? (fun p => p.1 == name) = none :=
      find?_none_of_any_false _ _ ha
    simp [ha, hf]
    cases objects.find? (fun p => lowerStr p.1 == lowerStr name) with
    | some p => simp
    | none =>
      cases objects.find? (fun p =>
        containsSub (lowerStr p.1) (lowerStr name) ||
        containsSub (lowerStr name) (lowerStr p.1)) with
      | some p => simp
      | none => simp

theorem containsSub_head {c : Char} {t s : Str}
    (h : containsSub (c :: t) s = true) : containsSub [c] s = true := by
  induction s with
  | nil => simp [containsSub] at h
  | cons d rest ih =>
    simp only [containsSub, Bool.or_eq_true] at h ⊢
    rcases h with h | h
    · left
      simp only [List.isPrefixOf, Bool.and_eq_true] at h
      simp [List.isPrefixOf, h.1]
    · right
      exact ih h

theorem replaceAllF_of_not_contains (old new : Str) (fuel : Nat) (s : Str)
    (h : containsSub old s = false) : replaceAllF old new fuel s = s := by
  induction fuel generalizing s with
  | zero => cases s <;> rfl
  | succ fuel ih =>
    cases s with
    | nil => rfl
    | cons c rest =>
      simp only [containsSub, Bool.or_eq_false_iff] at h
      simp [replaceAllF, h.1, ih rest h.2]

theorem replaceAll_of_not_contains (old new s : Str)
    (h : containsSub old s = false) : replaceAll old new s = s :=
  replaceAllF_of_not_contains old new s.length s h

theorem substituteParams_of_no_brace (params : List (Str × Str)) (loc : Str)
    (h : containsSub ['\x7b'] loc = false) : substituteParams params loc = loc := by
  induction params with
  | nil => rfl
  | cons kv rest ih =>
    have hc : containsSub (placeholderFor kv.1) loc = false := by
      cases hx : containsSub (placeholderFor kv.1) loc
      · rfl
      · exact absurd (containsSub_head hx) (by simp [h])
    show List.foldl _ _ (kv :: rest) = loc
    rw [List.foldl_cons]
    simp only [hc, Bool.false_eq_true, if_false]
    exact ih

theorem find?_map_insert (k v : Str) (ctx : Ctx)
    (h : ctx.any (fun p => p.1 == k) = true) :
    (ctx.map (fun p => if p.1 == k then (k, v) else p)).find?
      (fun p => p.1 == k) = some (k, v) := by
  induction ctx with
  | nil => simp at h
  | cons p rest ih =>
    cases hp : (p.1 == k) with
    | true =>
      rw [List.map_cons, if_pos hp, List.find?_cons_of_pos _ (by simp)]
    | false =>
      rw [List.map_cons, if_neg (by simp [hp]), List.find?_cons_of_neg _ (by simp [hp])]
      apply ih
      simpa [List.any_cons, hp] using h

theorem find?_append_singleton (k v : Str) (ctx : Ctx)
    (h : ctx.any (fun p => p.1 == k) = false) :
    (ctx ++ [(k, v)]).find? (fun p => p.1 == k) = some (k, v) := by
  induction ctx with
  | nil => rw [List.nil_append, List.find?_cons_of_pos _ (by simp)]
  | cons p rest ih =>
    simp only [List.any_cons, Bool.or_eq_false_iff] at h
    rw [List.cons_append, List.find?_cons_of_neg _ (by simp [h.1])]
    exact ih h.2

theorem ctxLookup_ctxInsert (ctx : Ctx) (k v : Str) :
    ctxLookup (ctxInsert ctx k v) k = some v := by
  unfold ctxInsert ctxLookup
  cases h : ctx.any (fun p => p.1 == k) with
  | true => rw [if_pos rfl, find?_map_insert k v ctx h]; rfl
  | false => rw [if_neg (by simp), find?_append_singleton k v ctx h]; rfl

theorem runSteps_all_pass (ex : Str → Ctx → Ctx × Bool) :
    ∀ (steps : List Str) (ctx : Ctx) (n : Nat), allPass ex steps ctx = true →
      runSteps ex steps ctx n = (ctxAfter ex steps ctx, (steps, [], true)) := by
  intro steps
  induction steps with
  | nil => intro ctx n _; rfl
  | cons s rest ih =>
    intro ctx n h
    simp only [allPass, Bool.and_eq_true] at h
    simp [runSteps, h.1, ctxAfter, ih _ (n + 1) h.2]

theorem runSteps_first_fail (ex : Str → Ctx → Ctx × Bool) :
    ∀ (pre : List Str) (s : Str) (suf : List Str) (ctx : Ctx) (n : Nat),
      allPass ex pre ctx = true →
      (ex s (ctxAfter ex pre ctx)).2 = false →
      runSteps ex (pre ++ s :: suf) ctx n =
        ((ex s (ctxAfter ex pre ctx)).1,
         (pre ++ [s], [stepDesc (n + pre.length + 1) s], false)) := by
  intro pre
  induction pre with
  | nil =>
    intro s suf ctx n _ hf
    simp only [ctxAfter] at hf
    simp [runSteps, hf, ctxAfter]
  | cons p pre' ih =>
    intro s suf ctx n hp hf
    simp only [allPass, Bool.and_eq_true] at hp
    simp only [ctxAfter] at hf
    have harith : (n + 1) + pre'.length + 1 = n + (pre'.length + 1) + 1 := by omega
    simp [runSteps, hp.1, ctxAfter, ih s suf (ex p ctx).1 (n + 1) hp.2 hf, harith]

/-! ## Claims -/

/-- Claim C1: for every repository mapping and queried name, resolution
follows exactly the three short-circuiting tiers — exact key match first,
then the first case-insensitive key match in map iteration order, then the
first substring match (lower-cased, in either direction) — an earlier
tier's hit always winning: the source's lookup equals the tiered policy. -/
theorem C1_resolution_tiers :
    ∀ (objects : List (Str × Str)) (name : Str),
      lookupLocator objects name = resolveTiers objects name :=
  fun objects name => lookupLocator_eq_resolveTiers objects name

/-- Claim C4: for every queried name that matches no repository key under
any of the three tiers, resolution fails with the not-found error. -/
theorem C4_not_found :
    ∀ (objects : List (Str × Str)) (name : Str) (params : List (Str × Str)),
      tierExact objects name = none →
      tierCaseInsensitive objects name = none →
      tierSubstring objects name = none →
      get_object_locator objects name params =
        Except.error (RepoErr.notFound name) := by
  intro objects name params h1 h2 h3
  have hl : lookupLocator objects name = none := by
    rw [lookupLocator_eq_resolveTiers]
    simp [resolveTiers, h1, h2, h3]
  simp [get_object_locator, hl]

/-- Witness for C4: the empty repository misses every tier for the name
`Missing Button`, and resolution returns the not-found error. -/
theorem C4_witness :
    tierExact [] ("Missing Button".data) = none ∧
    tierCaseInsensitive [] ("Missing Button".data) = none ∧
    tierSubstring [] ("Missing Button".data) = none ∧
    get_object_locator [] ("Missing Button".data) [] =
      Except.error (RepoErr.notFound ("Missing Button".data)) :=
  ⟨rfl, rfl, rfl, C4_not_found [] ("Missing Button".data) [] rfl rfl rfl⟩

/-- Claim C5: whenever the lookup resolves to a template, the call returns
`ok` of the parameter-substituted template — unresolved placeholders are a
warning only, never an exception; a single parameter replaces every
occurrence of its placeholder; and concretely the template
`//div[@id='\x7bid\x7d']` with `id = 42` yields `//div[@id='42']`, while a
missing parameter leaves the placeholder in the returned string. -/
theorem C5_param_substitution :
    (∀ (objects : List (Str × Str)) (name : Str) (params : List (Str × Str))
        (tmpl : Str),
      lookupLocator objects name = some tmpl →
      get_object_locator objects name params =
        Except.ok (substituteParams params tmpl)) ∧
    (∀ (k v tmpl : Str),
      substituteParams [(k, v)] tmpl = replaceAll (placeholderFor k) v tmpl) ∧
    substituteParams [(("id".data), ("42".data))]
        ("//div[@id=\x27\x7bid\x7d\x27]".data) =
      ("//div[@id=\x2742\x27]".data) ∧
    substituteParams [] ("//div[@id=\x27\x7bid\x7d\x27]".data) =
      ("//div[@id=\x27\x7bid\x7d\x27]".data) := by
  refine ⟨?_, ?_, by decide, rfl⟩
  · intro objects name params tmpl h
    cases params with
    | nil => simp [get_object_locator, h, substituteParams]
    | cons q qs =>
      cases hb : containsSub ['\x7b'] tmpl with
      | true => simp [get_object_locator, h, hb]
      | false =>
        rw [substituteParams_of_no_brace _ _ hb]
        simp [get_object_locator, h, hb]
  · intro k v tmpl
    cases hc : containsSub (placeholderFor k) tmpl with
    | true => simp [substituteParams, hc]
    | false =>
      simp only [substituteParams, List.foldl_cons, List.foldl_nil, hc,
        Bool.false_eq_true, if_false]
      exact (replaceAll_of_not_contains _ _ _ hc).symm

/-- Witness for C5: a repository entry `Div` resolving to the template
`//div[@id='\x7bid\x7d']` is returned with `id = 42` substituted. -/
theorem C5_witness :
    lookupLocator [(("Div".data), ("//div[@id=\x27\x7bid\x7d\x27]".data))]
        ("Div".data) = some ("//div[@id=\x27\x7bid\x7d\x27]".data) ∧
    get_object_locator [(("Div".data), ("//div[@id=\x27\x7bid\x7d\x27]".data))]
        ("Div".data) [(("id".data), ("42".data))] =
      Except.ok (substituteParams [(("id".data), ("42".data))]
        ("//div[@id=\x27\x7bid\x7d\x27]".data)) :=
  ⟨by decide, C5_param_substitution.1 _ _ _ _ (by decide)⟩

/-- Claim C10: `remove_object` on an absent exact key returns `False` and
modifies neither the in-memory map nor the persisted store; on a present
key it returns `True` after deleting the entry and persisting the full
remaining map. -/
theorem C10_remove_object :
    ∀ (st : RepoState) (name : Str),
      (st.objects.any (fun p => p.1 == name) = false →
        remove_object st name = (st, false)) ∧
      (st.objects.any (fun p => p.1 == name) = true →
        remove_object st name =
          ({ objects := eraseKey st.objects name,
             stored := eraseKey st.objects name }, true)) := by
  intro st name
  constructor
  · intro h
    simp [remove_object, h]
  · intro h
    simp [remove_object, h]

/-- Witness for C10: removing the absent name `B` from a one-entry
repository returns `False` and leaves both map and store unchanged;
removing the present name `A` deletes it and persists the remainder. -/
theorem C10_witness :
    (([(("A".data), ("#a".data))] : List (Str × Str)).any
        (fun p => p.1 == ("B".data)) = false ∧
      remove_object
          ⟨[(("A".data), ("#a".data))], [(("A".data), ("#a".data))]⟩
          ("B".data) =
        (⟨[(("A".data), ("#a".data))], [(("A".data), ("#a".data))]⟩, false)) ∧
    (([(("A".data), ("#a".data))] : List (Str × Str)).any
        (fun p => p.1 == ("A".data)) = true ∧
      remove_object
          ⟨[(("A".data), ("#a".data))], [(("A".data), ("#a".data))]⟩
          ("A".data) =
        (⟨[], []⟩, true)) :=
  ⟨⟨by decide,
    (C10_remove_object ⟨[(("A".data), ("#a".data))],
      [(("A".data), ("#a".data))]⟩ ("B".data)).1 (by decide)⟩,
   ⟨by decide,
    (C10_remove_object ⟨[(("A".data), ("#a".data))],
      [(("A".data), ("#a".data))]⟩ ("A".data)).2 (by decide)⟩⟩

/-- Claim C6: random-token expansion is one `str.replace` call with a single
timestamp, so every occurrence of the marker is rewritten to the same
decimal rendering of the current Unix time; concretely, a step carrying the
marker twice receives the identical value in both places. -/
theorem C6_random_token :
    (∀ (now : Nat) (s : Str),
      expandRandom now s = replaceAll randMarker (natStr now) s) ∧
    expandRandom 1234567
        ("fill Opportunity Name Field with \x22Opp $\x7bRANDOM\x7d\x22 and $\x7bRANDOM\x7d".data) =
      ("fill Opportunity Name Field with \x22Opp 1234567\x22 and 1234567".data) := by
  constructor
  · intro now s
    cases h : containsSub randMarker s with
    | true => simp [expandRandom, h]
    | false =>
      simp [expandRandom, h]
      exact (replaceAll_of_not_contains _ _ _ h).symm
  · rfl

/-- Claim C7: when a step contains the random marker and, after
substitution, matches the name-field pattern, the substituted quoted value
is stored into the execution context under the derived key
`current_<token before the first Field, lower-cased>_name`, where later
steps of the same test case can read it back. -/
theorem C7_name_field_store :
    ∀ (now : Nat) (step : Str) (ctx : Ctx) (v ft : Str),
      containsSub randMarker step = true →
      containsSub nameFieldPat (expandRandom now step) = true →
      searchWithQuoted (expandRandom now step) = some v →
      lastTokBeforeField (expandRandom now step) = some ft →
      expandStepTokens now step ctx =
        (ctxInsert ctx (deriveKey ft) v,
         Except.ok (substVars (ctxInsert ctx (deriveKey ft) v)
           (expandRandom now step))) ∧
      ctxLookup (ctxInsert ctx (deriveKey ft) v) (deriveKey ft) = some v := by
  intro now step ctx v ft h1 h2 h3 h4
  refine ⟨?_, ctxLookup_ctxInsert ctx (deriveKey ft) v⟩
  simp [expandStepTokens, h1, h2, h3, h4]

/-- Witness for C7: the step
`fill Opportunity Name Field with "Opp $\x7bRANDOM\x7d"` at time 1234567
stores the binding `current_name_name -> Opp 1234567` into an empty
context ("Name" is the token immediately preceding `Field`). -/
theorem C7_witness :
    containsSub randMarker
        ("fill Opportunity Name Field with \x22Opp $\x7bRANDOM\x7d\x22".data) = true ∧
    expandStepTokens 1234567
        ("fill Opportunity Name Field with \x22Opp $\x7bRANDOM\x7d\x22".data) [] =
      (ctxInsert [] (deriveKey ("Name".data)) ("Opp 1234567".data),
       Except.ok (substVars
         (ctxInsert [] (deriveKey ("Name".data)) ("Opp 1234567".data))
         (expandRandom 1234567
           ("fill Opportunity Name Field with \x22Opp $\x7bRANDOM\x7d\x22".data)))) ∧
    ctxLookup (ctxInsert [] (deriveKey ("Name".data)) ("Opp 1234567".data))
        (deriveKey ("Name".data)) = some ("Opp 1234567".data) := by
  have h := C7_name_field_store 1234567
    ("fill Opportunity Name Field with \x22Opp $\x7bRANDOM\x7d\x22".data) []
    ("Opp 1234567".data) ("Name".data) (by decide) (by decide) (by decide) (by decide)
  exact ⟨by decide, h.1, h.2⟩

/-- Claim C3 (amended): the `try` body of `execute_action` does raise
`ValueError` for a step that is empty after trimming or whose first
whitespace token matches no known verb — but the dispatcher's own
`except Exception` handler catches it (like every other exception), so the
caller receives a plain `False` and no exception propagates out of
`execute_action`. -/
theorem C3_dispatcher_valueerror_caught :
    ∀ (h : Handlers) (now : Nat) (step : Str) (ctx ctx1 : Ctx) (step1 : Str),
      expandStepTokens now step ctx = (ctx1, Except.ok step1) →
      (splitFirstTok step1 = [] ∨
        ∃ tok restParts, splitFirstTok step1 = tok :: restParts ∧
          isKnownVerb (lowerStr tok) = false) →
      (∃ m, execute_actionTry h now step ctx =
        (ctx1, Except.error (PyErr.valueError m))) ∧
      execute_action h now step ctx = (ctx1, false) := by
  intro h now step ctx ctx1 step1 hpre hcase
  have hTry : ∃ m, execute_actionTry h now step ctx =
      (ctx1, Except.error (PyErr.valueError m)) := by
    rcases hcase with hempty | ⟨tok, restParts, hsplit, hunk⟩
    · refine ⟨("Empty action step".data), ?_⟩
      simp [execute_actionTry, hpre, hempty]
    · simp only [isKnownVerb, Bool.or_eq_false_iff] at hunk
      obtain ⟨⟨⟨⟨⟨⟨⟨⟨⟨⟨⟨⟨⟨⟨u1, u2⟩, u3⟩, u4⟩, u5⟩, u6⟩, u7⟩, u8⟩, u9⟩,
        u10⟩, u11⟩, u12⟩, u13⟩, u14⟩, u15⟩ := hunk
      refine ⟨("Unknown action: ".data ++ lowerStr tok), ?_⟩
      simp [execute_actionTry, hpre, hsplit, u1, u2, u3, u4, u5, u6, u7, u8,
        u9, u10, u11, u12, u13, u14, u15]
  obtain ⟨m, hm⟩ := hTry
  exact ⟨⟨m, hm⟩, by simp [execute_action, hm]⟩

/-- Counterexample for C3 as stated: on the empty step the `ValueError` is
raised inside `execute_action` (first conjunct) but is swallowed by the
method's catch-all, so the caller observes a normal `False` return rather
than a propagated exception (second conjunct). -/
theorem C3_counterexample :
    execute_actionTry trivialHandlers 0 ("".data) [] =
      ([], Except.error (PyErr.valueError ("Empty action step".data))) ∧
    execute_action trivialHandlers 0 ("".data) [] = ([], false) :=
  ⟨rfl, rfl⟩

/-- Witness for C3 (amended): on the unknown verb `frobnicate` the
dispatcher returns `False` to the caller without raising. -/
theorem C3_witness :
    execute_action trivialHandlers 0 ("frobnicate x".data) [] = ([], false) :=
  (C3_dispatcher_valueerror_caught trivialHandlers 0 ("frobnicate x".data) [] []
    ("frobnicate x".data) rfl
    (Or.inr ⟨("frobnicate".data), [("x".data)], rfl, by decide⟩)).2

/-- Claim C2: the executor is fail-fast — when every step of a prefix
succeeds and the next step fails, the step loop executes exactly the prefix
plus the failing step, records exactly that one failed-step description,
and the test case reports `FAILED`; when every step succeeds the test case
reports `PASSED` with no failed steps. -/
theorem C2_fail_fast_executor :
    (∀ (ex : Str → Ctx → Ctx × Bool) (pre : List Str) (s : Str) (suf : List Str),
      allPass ex pre [] = true →
      (ex s (ctxAfter ex pre [])).2 = false →
      runSteps ex (pre ++ s :: suf) [] 0 =
        ((ex s (ctxAfter ex pre [])).1,
         (pre ++ [s], [stepDesc (pre.length + 1) s], false)) ∧
      execute_test_case (Except.ok ⟨ex⟩) (pre ++ s :: suf) =
        ({ status := Status.FAILED,
           failedSteps := [stepDesc (pre.length + 1) s],
           errMsg := none }, true)) ∧
    (∀ (ex : Str → Ctx → Ctx × Bool) (steps : List Str),
      allPass ex steps [] = true →
      execute_test_case (Except.ok ⟨ex⟩) steps =
        ({ status := Status.PASSED, failedSteps := [], errMsg := none }, true)) := by
  constructor
  · intro ex pre s suf hp hf
    have hrun := runSteps_first_fail ex pre s suf [] 0 hp hf
    have hrun' : runSteps ex (pre ++ s :: suf) [] 0 =
        ((ex s (ctxAfter ex pre [])).1,
         (pre ++ [s], [stepDesc (pre.length + 1) s], false)) := by
      simpa using hrun
    refine ⟨hrun', ?_⟩
    simp [execute_test_case, hrun']
  · intro ex steps hp
    have hrun := runSteps_all_pass ex steps [] 0 hp
    simp [execute_test_case, hrun]

/-- Witness for C2: with steps `[S1 (pass), S2 (fail), S3 (pass)]` the loop
executes `S1` then `S2` only, records the single description `Step 2: S2`,
and the test case is `FAILED`; `S3` does not appear in the executed list. -/
theorem C2_witness :
    allPass failS2Exec [("S1".data)] [] = true ∧
    (failS2Exec ("S2".data) (ctxAfter failS2Exec [("S1".data)] [])).2 = false ∧
    runSteps failS2Exec ([("S1".data)] ++ ("S2".data) :: [("S3".data)]) [] 0 =
      ((failS2Exec ("S2".data) (ctxAfter failS2Exec [("S1".data)] [])).1,
       ([("S1".data)] ++ [("S2".data)], [stepDesc 2 ("S2".data)], false)) ∧
    execute_test_case (Except.ok ⟨failS2Exec⟩)
        ([("S1".data)] ++ ("S2".data) :: [("S3".data)]) =
      ({ status := Status.FAILED, failedSteps := [stepDesc 2 ("S2".data)],
         errMsg := none }, true) := by
  have h := C2_fail_fast_executor.1 failS2Exec [("S1".data)] ("S2".data)
    [("S3".data)] (by decide) (by decide)
  exact ⟨by decide, by decide, h.1, h.2⟩

/-- Claim C9: an exception during session setup or pre-requisites makes the
unit of work return a result with status `ERROR` (not `FAILED`) carrying
the exception message — `execute_test_case` returns it normally instead of
re-raising — and resource cleanup is attempted on every path. -/
theorem C9_setup_error :
    (∀ (msg : Str) (steps : List Str),
      execute_test_case (Except.error msg) steps =
        ({ status := Status.ERROR, failedSteps := [], errMsg := some msg }, true)) ∧
    (∀ (setup : Except Str Session) (steps : List Str),
      (execute_test_case setup steps).2 = true) := by
  constructor
  · intro msg steps
    rfl
  · intro setup steps
    cases setup with
    | error msg => rfl
    | ok sess =>
      cases h : (runSteps sess.exec steps [] 0).2.2.2 <;>
        simp [execute_test_case, h]

/-- Claim C8: when the object phrase of `verify <X> is <cond>` resolves to
no repository entry (all three tiers miss), the verify handler evaluates
the condition against the literal text locator `text=<X>` (surrounding
double quotes stripped) instead of failing on resolution. -/
theorem C8_verify_text_fallback :
    ∀ (page : Page) (objects : List (Str × Str)) (desc g1 g2 : Str),
      matchIs desc = some (g1, g2) →
      lookupLocator objects (pyStrip g1) = none →
      perform_verificationE page objects desc =
        verifyCondE page ("text=".data ++ stripDQ (pyStrip g1)) (pyStrip g2) ∧
      perform_verification page objects desc =
        (match verifyCondE page ("text=".data ++ stripDQ (pyStrip g1))
            (pyStrip g2) with
         | Except.ok _ => true
         | Except.error _ => false) := by
  intro page objects desc g1 g2 hm hl
  have hE : perform_verificationE page objects desc =
      verifyCondE page ("text=".data ++ stripDQ (pyStrip g1)) (pyStrip g2) := by
    simp [perform_verificationE, hm, hl]
  refine ⟨hE, ?_⟩
  simp [perform_verification, hE]

/-- Witness for C8: `verify Save Button is enabled` against an empty
repository falls back to the locator `text=Save Button` and reports the
enabled-state check of that element. -/
theorem C8_witness :
    matchIs ("Save Button is enabled".data) =
      some (("Save Button".data), ("enabled".data)) ∧
    lookupLocator [] (pyStrip ("Save Button".data)) = none ∧
    perform_verification examplePage [] ("Save Button is enabled".data) =
      (match verifyCondE examplePage
          ("text=".data ++ stripDQ (pyStrip ("Save Button".data)))
          (pyStrip ("enabled".data)) with
       | Except.ok _ => true
       | Except.error _ => false) := by
  have h := C8_verify_text_fallback examplePage [] ("Save Button is enabled".data)
    ("Save Button".data) ("enabled".data) (by decide) rfl
  exact ⟨by decide, rfl, h.2⟩

end SFA

